/-
  Verification of the Foundgarten adaptive practice engine.

  Shallow embedding of the Letter Match engine:
  * `WeightedSelection` embeds src/lib/learning/weighted-selection.ts
  * `LetterMatchUtils` embeds the game utilities (recordAnswer,
    initializeLetterStatistics, generateFirstRound, calculateWeight)
  * `LetterMatchStore` embeds the Zustand game store (startNewRound,
    recordAnswer session actions).

  Modelling conventions:
  * JavaScript numbers are modelled as exact rationals (`ℚ`) wherever the
    code only adds, multiplies, divides and compares, and as reals (`ℝ`)
    where `Math.pow` with a fractional exponent forces real powers.
  * `Math.random()` is modelled as an explicit stream of draws, one value
    per call site iteration, passed in as a function `ℕ → ℚ` (or `ℕ → ℝ`).
  * `Date.now()` is modelled as an explicit `now : ℚ` parameter
    (milliseconds since the epoch).
  * Asynchronous storage operations are modelled by explicit state
    passing; the read and write phases of the database `recordAnswer`
    are split so that event-loop interleavings can be expressed.
-/
import Mathlib

/-! ## Shared data model (src/types/game.ts, src/types/letter-match.ts) -/

/-- `Difficulty = 'easy' | 'auto' | 'hard'` (spec names: relaxed | standard | intensive). -/
inductive Difficulty where
  | easy
  | auto
  | hard
deriving DecidableEq, Repr

/-- `CaseType = 'uppercase' | 'lowercase' | 'both' | 'n/a'`. -/
inductive CaseType where
  | uppercase
  | lowercase
  | both
  | na
deriving DecidableEq, Repr

/-- `GameStatistics` record (src/types/game.ts). `lastAttempt` is a
millisecond timestamp; counters are natural numbers; `successRate` is the
stored derived rate. -/
structure GameStatistics where
  id : Option ℕ := none
  gameId : String
  itemId : String
  totalAttempts : ℕ
  correctCount : ℕ
  incorrectCount : ℕ
  lastAttempt : ℚ
  successRate : ℚ
deriving DecidableEq, Repr

/-- `LetterMatchStatistics extends GameStatistics` with `letter`,
`caseType` and (schema v3) `profileId`. Modelled as a flat structure. -/
structure LetterMatchStatistics where
  id : Option ℕ := none
  gameId : String
  profileId : ℕ
  itemId : String
  letter : Char
  caseType : CaseType
  totalAttempts : ℕ
  correctCount : ℕ
  incorrectCount : ℕ
  lastAttempt : ℚ
  successRate : ℚ
deriving DecidableEq, Repr

/-- `WeightedItem`: transient pairing of an item id and a weight.  The
carrier `α` instantiates the untyped JavaScript number: `ℚ` for the
sampler, `ℝ` once fractional powers appear. -/
structure WeightedItem (α : Type) where
  itemId : String
  weight : α
deriving DecidableEq, Repr

/-- `Letter` object used during gameplay (src/types/letter-match.ts). -/
structure Letter where
  character : Char
  caseType : CaseType
deriving DecidableEq, Repr

/-- `LetterMatchConfig` (difficulty, case filter, round size; sound and
haptic flags do not influence the engine). -/
structure LetterMatchConfig where
  difficulty : Difficulty
  letterCase : CaseType
  roundSize : ℕ
  soundEnabled : Bool := true
  hapticEnabled : Bool := true
deriving DecidableEq, Repr

/-- Session state of the Zustand letter-match store. -/
structure LetterMatchState where
  currentRound : ℕ
  sessionLetters : List Letter
  currentIndex : ℕ
  currentScore : ℕ
  roundComplete : Bool
  config : LetterMatchConfig
deriving DecidableEq, Repr

/-- Storage failure (Dexie persistence rejection), spec `StorageUnavailable`. -/
inductive StorageError where
  | storageUnavailable
deriving DecidableEq, Repr

namespace WeightedSelection

/-- `calculateWeight` from src/lib/learning/weighted-selection.ts:
unseen items get weight 1.0, otherwise `max (errorWeight * recencyBoost)
0.1` with a 1.2 boost after 7 days. -/
def calculateWeight (now : ℚ) (stat : GameStatistics) : ℚ :=
  if stat.totalAttempts = 0 then 1
  else
    let errorWeight := 1 - stat.successRate
    let daysSinceLastAttempt := (now - stat.lastAttempt) / (1000 * 60 * 60 * 24)
    let recencyBoost := if daysSinceLastAttempt > 7 then 12 / 10 else 1
    let minimumWeight := 1 / 10
    max (errorWeight * recencyBoost) minimumWeight

/-- `adjustWeightsForDifficulty`: easy flattens via `0.3 + w * 0.7`,
hard applies `Math.pow(w, 1.5)`, auto is the identity. -/
noncomputable def adjustWeightsForDifficulty
    (weights : List (WeightedItem ℝ)) (difficulty : Difficulty) :
    List (WeightedItem ℝ) :=
  match difficulty with
  | .easy => weights.map fun w => { w with weight := 0.3 + w.weight * 0.7 }
  | .hard => weights.map fun w => { w with weight := w.weight ^ (1.5 : ℝ) }
  | .auto => weights

/-- `normalizeWeights`: divide by the total, or fall back to a uniform
`1 / n` distribution when the total is zero. -/
def normalizeWeights {α : Type} [LinearOrderedField α]
    (weights : List (WeightedItem α)) : List (WeightedItem α) :=
  let totalWeight := (weights.map (fun w => w.weight)).sum
  if totalWeight = 0 then
    let evenWeight := 1 / (weights.length : α)
    weights.map fun w => { w with weight := evenWeight }
  else
    weights.map fun w => { w with weight := w.weight / totalWeight }

/-- Inner cumulative-probability walk of `weightedRandomSelection`:
returns the first index whose cumulative weight reaches the draw
(`random <= cumulativeWeight`), or `none` when the walk never breaks. -/
def cumulativeFind {α : Type} [LinearOrderedField α] (random : α) :
    List (WeightedItem α) → α → Option ℕ
  | [], _ => none
  | w :: ws, acc =>
    if random ≤ acc + w.weight then some 0
    else (cumulativeFind random ws (acc + w.weight)).map (· + 1)

/-- The `selectedIndex` computed by one loop iteration (initialised to 0,
overwritten on break). -/
def selectedIndex {α : Type} [LinearOrderedField α]
    (random : α) (available : List (WeightedItem α)) : ℕ :=
  (cumulativeFind random available 0).getD 0

/-- The `for (let i = 0; i < count && available.length > 0; i++)` loop of
`weightedRandomSelection`.  `randoms i` is the `Math.random()` draw of
iteration `i`; without duplicates the chosen entry is spliced out and the
remaining pool renormalised. -/
def selectionLoop {α : Type} [LinearOrderedField α]
    (randoms : ℕ → α) (allowDuplicates : Bool) :
    ℕ → ℕ → List (WeightedItem α) → List String
  | 0, _, _ => []
  | fuel + 1, i, available =>
    if available.isEmpty then []
    else
      let idx := selectedIndex (randoms i) available
      let selectedId := (available.getD idx ⟨"", 0⟩).itemId
      let rest :=
        if allowDuplicates then
          selectionLoop randoms allowDuplicates fuel (i + 1) available
        else
          selectionLoop randoms allowDuplicates fuel (i + 1)
            (normalizeWeights (available.eraseIdx idx))
      selectedId :: rest

/-- `weightedRandomSelection(weights, count, allowDuplicates)`. -/
def weightedRandomSelection {α : Type} [LinearOrderedField α]
    (randoms : ℕ → α) (weights : List (WeightedItem α)) (count : ℕ)
    (allowDuplicates : Bool) : List String :=
  if weights.isEmpty then []
  else selectionLoop randoms allowDuplicates count 0 (normalizeWeights weights)

/-- The destructuring swap `[a[i], a[j]] = [a[j], a[i]]` on a list (both
indices must be in range for the lookup to succeed). -/
def listSwap {α : Type} (l : List α) (i j : ℕ) : List α :=
  match l.get? i, l.get? j with
  | some x, some y => (l.set i y).set j x
  | _, _ => l

/-- Fisher-Yates loop `for (let i = n-1; i > 0; i--)`; argument `i` counts
down, `rand i` is the `Math.random()` draw used at index `i`, and
`j = Math.floor(rand i * (i + 1))`. -/
def fisherYatesGo {α : Type} (rand : ℕ → ℚ) : ℕ → List α → List α
  | 0, l => l
  | i + 1, l => fisherYatesGo rand i (listSwap l (i + 1) (Int.toNat ⌊rand (i + 1) * (i + 1 + 1)⌋))

/-- `shuffleArray`: Fisher-Yates shuffle over a copy of the input. -/
def shuffleArray {α : Type} (rand : ℕ → ℚ) (array : List α) : List α :=
  fisherYatesGo rand (array.length - 1) array

/-- The weight pipeline of `generateRoundItems`: score every statistic
with `calculateWeight`, then adjust for difficulty.  These are exactly
the weights handed to `weightedRandomSelection`. -/
noncomputable def generateRoundWeights (now : ℚ)
    (statistics : List GameStatistics) (difficulty : Difficulty) :
    List (WeightedItem ℝ) :=
  adjustWeightsForDifficulty
    (statistics.map fun stat => ⟨stat.itemId, ((calculateWeight now stat : ℚ) : ℝ)⟩)
    difficulty

/-- `generateRoundItems`: weighted selection of
`min roundSize statistics.length` ids followed by a presentation
shuffle. -/
noncomputable def generateRoundItems (now : ℚ) (randoms : ℕ → ℝ)
    (shuffleRand : ℕ → ℚ) (statistics : List GameStatistics)
    (roundSize : ℕ) (difficulty : Difficulty) : List String :=
  shuffleArray shuffleRand
    (weightedRandomSelection randoms
      (generateRoundWeights now statistics difficulty)
      (min roundSize statistics.length) false)

end WeightedSelection

namespace LetterMatchUtils

/-- The module-level alphabet constant of the game utilities. -/
def ALPHABET : List Char := "ABCDEFGHIJKLMNOPQRSTUVWXYZ".toList

/-- Render a `CaseType` the way the source's string literals do. -/
def caseTypeString : CaseType → String
  | .uppercase => "uppercase"
  | .lowercase => "lowercase"
  | .both => "both"
  | .na => "n/a"

/-- The `for (const char of ALPHABET)` loop body of `generateFirstRound`:
with the `'both'` filter the case is chosen by `Math.random() > 0.5`,
otherwise it is forced by the filter.  `caseRand i` is the draw used for
the `i`-th letter. -/
def firstRoundGo (caseRand : ℕ → ℚ) (letterCase : CaseType) :
    ℕ → List Char → List Letter
  | _, [] => []
  | i, char :: rest =>
    let caseType : CaseType :=
      if letterCase = .both then
        if caseRand i > 1 / 2 then .uppercase else .lowercase
      else if letterCase = .uppercase then .uppercase
      else .lowercase
    let character := if caseType = .uppercase then char else char.toLower
    { character := character, caseType := caseType } ::
      firstRoundGo caseRand letterCase (i + 1) rest

/-- `generateFirstRound` before the shuffle: one entry per alphabet
letter. -/
def firstRoundLetters (caseRand : ℕ → ℚ) (letterCase : CaseType) : List Letter :=
  firstRoundGo caseRand letterCase 0 ALPHABET

/-- `generateFirstRound(config)`: build one letter per alphabet entry and
shuffle the result; the configured round size is never consulted. -/
def generateFirstRound (caseRand shuffleRand : ℕ → ℚ)
    (config : LetterMatchConfig) : List Letter :=
  WeightedSelection.shuffleArray shuffleRand
    (firstRoundLetters caseRand config.letterCase)

/-- The per-letter `calculateWeight(stat, difficulty)` of the game
utilities: handles a missing record, applies the error weight and recency
boost, then the difficulty modifier (`easy ↦ 0.5 + w * 0.5`,
`hard ↦ Math.pow(w, 0.7)`), and finally clamps below by 0.1. -/
noncomputable def calculateWeight (now : ℚ)
    (difficulty : Difficulty) (stat : Option LetterMatchStatistics) : ℝ :=
  match stat with
  | none => 1
  | some s =>
    if s.totalAttempts = 0 then 1
    else
      let errorWeight : ℚ := 1 - s.successRate
      let daysSinceLastAttempt : ℚ := (now - s.lastAttempt) / (1000 * 60 * 60 * 24)
      let recencyBoost : ℚ := if daysSinceLastAttempt > 7 then 12 / 10 else 1
      let finalWeight : ℝ := ((errorWeight * recencyBoost : ℚ) : ℝ)
      let adjusted : ℝ :=
        if difficulty = .easy then 0.5 + finalWeight * 0.5
        else if difficulty = .hard then finalWeight ^ (0.7 : ℝ)
        else finalWeight
      max 0.1 adjusted

/-- Dexie query
`where('[profileId+letter+caseType]').equals([profileId, upperLetter, caseType]).first()`
over the statistics table, modelled as a list scan. -/
def findStat (database : List LetterMatchStatistics) (profileId : ℕ)
    (letter : Char) (caseType : CaseType) : Option LetterMatchStatistics :=
  database.find? fun s =>
    s.profileId == profileId && s.letter == letter && s.caseType == caseType

/-- A fresh auto-increment primary key for the table. -/
def freshId (database : List LetterMatchStatistics) : ℕ :=
  (database.filterMap (fun s => s.id)).foldr max 0 + 1

/-- Dexie `table.put(stat)`: replace the row with the same primary key,
or add the row (with a fresh key when it has none). -/
def dbPut (database : List LetterMatchStatistics)
    (stat : LetterMatchStatistics) : List LetterMatchStatistics :=
  match stat.id with
  | some i =>
    if database.any (fun s => s.id == some i) then
      database.map fun s => if s.id == some i then stat else s
    else database ++ [stat]
  | none => database ++ [{ stat with id := some (freshId database) }]

/-- The zeroed record `recordAnswer` creates when the query finds
nothing. -/
def freshStat (profileId : ℕ) (letter : Letter) (now : ℚ) : LetterMatchStatistics :=
  let upperLetter := letter.character.toUpper
  { id := none
    gameId := "letter-match"
    profileId := profileId
    itemId := String.singleton upperLetter ++ "-" ++ caseTypeString letter.caseType
    letter := upperLetter
    caseType := letter.caseType
    totalAttempts := 0
    correctCount := 0
    incorrectCount := 0
    lastAttempt := now
    successRate := 0 }

/-- The read phase of `recordAnswer`: fetch-or-create the record for
`(profileId, letter)`. -/
def recordAnswerRead (database : List LetterMatchStatistics)
    (letter : Letter) (profileId : ℕ) (now : ℚ) : LetterMatchStatistics :=
  (findStat database profileId letter.character.toUpper letter.caseType).getD
    (freshStat profileId letter now)

/-- The in-memory update of `recordAnswer`: bump `totalAttempts` and the
matching counter, recompute `successRate`, stamp `lastAttempt`. -/
def bumpStat (stat : LetterMatchStatistics) (correct : Bool) (now : ℚ) :
    LetterMatchStatistics :=
  let stat := { stat with totalAttempts := stat.totalAttempts + 1 }
  let stat :=
    if correct then { stat with correctCount := stat.correctCount + 1 }
    else { stat with incorrectCount := stat.incorrectCount + 1 }
  { stat with
    successRate := (stat.correctCount : ℚ) / (stat.totalAttempts : ℚ)
    lastAttempt := now }

/-- `recordAnswer(letter, correct, profileId)` run without interference:
read phase followed by its own write (`db.letterMatchStatistics.put`). -/
def recordAnswer (database : List LetterMatchStatistics) (letter : Letter)
    (correct : Bool) (profileId : ℕ) (now : ℚ) : List LetterMatchStatistics :=
  dbPut database (bumpStat (recordAnswerRead database letter profileId now) correct now)

/-- Two overlapping `recordAnswer` calls whose awaited read phases both
complete before either write phase runs (the schedule read₁, read₂,
write₁, write₂ of the single-threaded event loop). -/
def recordAnswerInterleaved (database : List LetterMatchStatistics)
    (letter : Letter) (correct₁ correct₂ : Bool) (profileId : ℕ) (now : ℚ) :
    List LetterMatchStatistics :=
  let snapshot₁ := recordAnswerRead database letter profileId now
  let snapshot₂ := recordAnswerRead database letter profileId now
  let database₁ := dbPut database (bumpStat snapshot₁ correct₁ now)
  dbPut database₁ (bumpStat snapshot₂ correct₂ now)

/-- The 52 zeroed records (26 letters x uppercase, lowercase) built by
`initializeLetterStatistics`; the `letter` column always stores the
uppercase character. -/
def initialLetterStats (profileId : ℕ) (now : ℚ) : List LetterMatchStatistics :=
  ALPHABET.flatMap fun letter =>
    [CaseType.uppercase, CaseType.lowercase].map fun caseType =>
      { id := none
        gameId := "letter-match"
        profileId := profileId
        itemId := String.singleton letter ++ "-" ++ caseTypeString caseType
        letter := letter
        caseType := caseType
        totalAttempts := 0
        correctCount := 0
        incorrectCount := 0
        lastAttempt := now
        successRate := 0 }

/-- `initializeLetterStatistics(profileId)`: a no-op when records for the
profile already exist, otherwise `bulkAdd` of the zeroed table. -/
def initializeLetterStatistics (database : List LetterMatchStatistics)
    (profileId : ℕ) (now : ℚ) : List LetterMatchStatistics :=
  if 0 < database.countP (fun s => s.profileId == profileId) then database
  else (initialLetterStats profileId now).foldl dbPut database

end LetterMatchUtils

namespace LetterMatchStore

/-- `startNewRound`: requires an active profile; round 1 is the bootstrap
`generateFirstRound`, later rounds delegate to the adaptive generator
(abstracted here as the function `adaptive`, since it reads the
database). -/
def startNewRound (adaptive : LetterMatchConfig → List Letter)
    (caseRand shuffleRand : ℕ → ℚ) (activeProfileId : Option ℕ)
    (st : LetterMatchState) : LetterMatchState :=
  let nextRound := st.currentRound + 1
  match activeProfileId with
  | none => st
  | some _ =>
    let letters :=
      if nextRound = 1 then
        LetterMatchUtils.generateFirstRound caseRand shuffleRand st.config
      else adaptive st.config
    { st with
      currentRound := nextRound
      sessionLetters := letters
      currentIndex := 0
      currentScore := 0
      roundComplete := false }

/-- The store action `recordAnswer(correct)`.  `persist` stands for the
awaited `recordAnswerToDB` call against the statistics table and may
reject; the session-state updates are written only after that await
succeeds, exactly as in the source.  Returns the session state, the
statistics table, and the error surfaced to the caller (if any). -/
def recordAnswer
    (persist : List LetterMatchStatistics → Letter → Bool → ℕ →
      Except StorageError (List LetterMatchStatistics))
    (activeProfileId : Option ℕ) (correct : Bool)
    (st : LetterMatchState) (database : List LetterMatchStatistics) :
    LetterMatchState × List LetterMatchStatistics × Option StorageError :=
  if st.sessionLetters.length ≤ st.currentIndex then
    (st, database, none)
  else
    match activeProfileId with
    | none => (st, database, none)
    | some profileId =>
      let currentLetter := st.sessionLetters.getD st.currentIndex ⟨'A', .uppercase⟩
      match persist database currentLetter correct profileId with
      | .error e => (st, database, some e)
      | .ok database' =>
        let newScore := if correct then st.currentScore + 1 else st.currentScore
        let isLastLetter := st.currentIndex = st.sessionLetters.length - 1
        if isLastLetter then
          ({ st with
              currentScore := newScore
              currentIndex := st.currentIndex + 1
              roundComplete := true }, database', none)
        else
          ({ st with
              currentScore := newScore
              currentIndex := st.currentIndex + 1 }, database', none)

end LetterMatchStore

/-! ## Derived predicates and concrete inputs used by witnesses -/

/-- The statistics invariant of the spec: counters add up and
`successRate` is the derived rate (0 for an unseen item). -/
def StatInv (s : LetterMatchStatistics) : Prop :=
  s.correctCount + s.incorrectCount = s.totalAttempts ∧
  s.successRate =
    if s.totalAttempts = 0 then 0
    else (s.correctCount : ℚ) / (s.totalAttempts : ℚ)

instance : DecidablePred StatInv := fun s => by
  unfold StatInv
  infer_instance

/-- A zeroed stored statistic for uppercase `A` (profile 1, key 1). -/
def statA0 : LetterMatchStatistics :=
  { id := some 1
    gameId := "letter-match"
    profileId := 1
    itemId := "A-uppercase"
    letter := 'A'
    caseType := .uppercase
    totalAttempts := 0
    correctCount := 0
    incorrectCount := 0
    lastAttempt := 0
    successRate := 0 }

/-- The uppercase-`A` gameplay letter. -/
def letterA : Letter := { character := 'A', caseType := .uppercase }

/-- A statistic with success rate 1/2 (1 correct, 1 incorrect). -/
def statHalf : LetterMatchStatistics :=
  { statA0 with
    id := some 2
    totalAttempts := 2
    correctCount := 1
    incorrectCount := 1
    successRate := 1 / 2 }

/-- A well-practised statistic: 9 of 10 correct, just attempted. -/
def statNine : GameStatistics :=
  { id := some 3
    gameId := "letter-match"
    itemId := "A-uppercase"
    totalAttempts := 10
    correctCount := 9
    incorrectCount := 1
    lastAttempt := 0
    successRate := 9 / 10 }

/-- A never-attempted statistic. -/
def statFresh : GameStatistics :=
  { statNine with id := some 4, totalAttempts := 0, correctCount := 0, incorrectCount := 0, successRate := 0 }

/-- A default configuration (auto difficulty, both cases, round size 15). -/
def configBoth : LetterMatchConfig :=
  { difficulty := .auto, letterCase := .both, roundSize := 15 }

/-- A fresh session state (no round played yet). -/
def freshState : LetterMatchState :=
  { currentRound := 0
    sessionLetters := []
    currentIndex := 0
    currentScore := 0
    roundComplete := false
    config := configBoth }

/-- A mid-round session state with a single letter left at index 0. -/
def midRoundState : LetterMatchState :=
  { freshState with currentRound := 1, sessionLetters := [letterA] }

/-- A completed-round session state (index has passed the last letter). -/
def doneState : LetterMatchState :=
  { midRoundState with currentIndex := 1, currentScore := 1, roundComplete := true }

/-- A persistence stub that always rejects. -/
def failingPersist : List LetterMatchStatistics → Letter → Bool → ℕ →
    Except StorageError (List LetterMatchStatistics) :=
  fun _ _ _ _ => .error .storageUnavailable

/-- A constant zero random stream (a legal `Math.random()` history). -/
def zeroRand : ℕ → ℚ := fun _ => 0

/-! ## Helper lemmas: normalisation -/

namespace WeightedSelection

theorem normalizeWeights_map_itemId {α : Type} [LinearOrderedField α]
    (weights : List (WeightedItem α)) :
    (normalizeWeights weights).map (fun w => w.itemId) =
      weights.map (fun w => w.itemId) := by
  simp only [normalizeWeights]
  split <;> simp [List.map_map, Function.comp]

theorem normalizeWeights_length {α : Type} [LinearOrderedField α]
    (weights : List (WeightedItem α)) :
    (normalizeWeights weights).length = weights.length := by
  simp only [normalizeWeights]
  split <;> simp

theorem normalizeWeights_sum {α : Type} [LinearOrderedField α]
    (weights : List (WeightedItem α)) (h : weights ≠ []) :
    ((normalizeWeights weights).map (fun w => w.weight)).sum = 1 := by
  have hlen : (weights.length : α) ≠ 0 := by
    have := List.length_pos.mpr h
    exact_mod_cast Nat.pos_iff_ne_zero.mp this
  simp only [normalizeWeights]
  split
  case isTrue htot =>
    rw [List.map_map]
    have hconst : ((fun w : WeightedItem α => w.weight) ∘
        fun w : WeightedItem α => { w with weight := 1 / (weights.length : α) }) =
        Function.const (WeightedItem α) (1 / (weights.length : α)) := rfl
    rw [hconst, List.map_const, List.sum_replicate, nsmul_eq_mul]
    field_simp
  case isFalse htot =>
    rw [List.map_map]
    have hdiv : ((fun w : WeightedItem α => w.weight) ∘
        fun w : WeightedItem α =>
          { w with weight := w.weight / (weights.map (fun v => v.weight)).sum }) =
        fun w : WeightedItem α =>
          w.weight * ((weights.map (fun v => v.weight)).sum)⁻¹ := by
      funext w
      simp [div_eq_mul_inv]
    rw [hdiv, List.sum_map_mul_right]
    exact mul_inv_cancel₀ htot

theorem normalizeWeights_uniform {α : Type} [LinearOrderedField α]
    (weights : List (WeightedItem α))
    (htot : (weights.map (fun w => w.weight)).sum = 0) :
    ∀ w ∈ normalizeWeights weights, w.weight = 1 / (weights.length : α) := by
  intro w hw
  simp only [normalizeWeights, if_pos htot] at hw
  obtain ⟨v, _, rfl⟩ := List.mem_map.mp hw
  rfl

end WeightedSelection

/-! ## Helper lemmas: the selection loop -/

namespace WeightedSelection

theorem cumulativeFind_lt {α : Type} [LinearOrderedField α] (random : α) :
    ∀ (l : List (WeightedItem α)) (acc : α) (j : ℕ),
      cumulativeFind random l acc = some j → j < l.length := by
  intro l
  induction l with
  | nil =>
    intro acc j h
    simp [cumulativeFind] at h
  | cons w ws ih =>
    intro acc j h
    rw [cumulativeFind] at h
    split at h
    · cases h
      simp
    · obtain ⟨j', hj', rfl⟩ := Option.map_eq_some'.mp h
      have := ih _ _ hj'
      simpa using Nat.succ_lt_succ this

theorem selectedIndex_lt {α : Type} [LinearOrderedField α]
    (random : α) (available : List (WeightedItem α)) (h : available ≠ []) :
    selectedIndex random available < available.length := by
  unfold selectedIndex
  cases hc : cumulativeFind random available 0 with
  | none => simpa [Option.getD] using List.length_pos.mpr h
  | some j => simpa using cumulativeFind_lt random available 0 j hc

theorem selectionLoop_length {α : Type} [LinearOrderedField α] (randoms : ℕ → α) :
    ∀ (fuel i : ℕ) (available : List (WeightedItem α)),
      (selectionLoop randoms false fuel i available).length =
        min fuel available.length := by
  intro fuel
  induction fuel with
  | zero =>
    intro i available
    simp [selectionLoop]
  | succ n ih =>
    intro i available
    by_cases h : available.isEmpty
    · rw [selectionLoop]
      simp [h, List.isEmpty_iff.mp h]
    · have hne : available ≠ [] := by
        simpa [List.isEmpty_iff] using h
      have hlt := selectedIndex_lt (randoms i) available hne
      have hpos := List.length_pos.mpr hne
      rw [selectionLoop]
      simp only [h, Bool.false_eq_true, if_false, List.length_cons]
      rw [ih, normalizeWeights_length, List.length_eraseIdx]
      rw [if_pos hlt]
      omega

theorem selectionLoop_subset {α : Type} [LinearOrderedField α] (randoms : ℕ → α) :
    ∀ (fuel i : ℕ) (available : List (WeightedItem α)) (x : String),
      x ∈ selectionLoop randoms false fuel i available →
      x ∈ available.map (fun w => w.itemId) := by
  intro fuel
  induction fuel with
  | zero =>
    intro i available x h
    simp [selectionLoop] at h
  | succ n ih =>
    intro i available x h
    by_cases he : available.isEmpty
    · rw [selectionLoop] at h
      simp [he] at h
    · have hne : available ≠ [] := by
        simpa [List.isEmpty_iff] using he
      have hlt := selectedIndex_lt (randoms i) available hne
      rw [selectionLoop] at h
      simp only [he, Bool.false_eq_true, if_false, List.mem_cons] at h
      rcases h with h | h
      · subst h
        rw [List.getD_eq_getElem _ _ hlt]
        exact List.mem_map_of_mem _ (List.getElem_mem hlt)
      · have hsub := ih _ _ _ h
        rw [normalizeWeights_map_itemId] at hsub
        exact ((List.eraseIdx_sublist available _).map _).subset hsub

theorem not_mem_map_eraseIdx {α β : Type} (f : α → β) (l : List α) (k : ℕ)
    (hk : k < l.length) (hnd : (l.map f).Nodup) :
    f (l.get ⟨k, hk⟩) ∉ (l.eraseIdx k).map f := by
  intro hmem
  obtain ⟨w, hw, hfw⟩ := List.mem_map.mp hmem
  obtain ⟨i, hi, hik, rfl⟩ := List.mem_eraseIdx_iff_getElem.mp hw
  have hinj := List.nodup_iff_injective_get.mp hnd
  have hgi : (l.map f).get ⟨i, by simpa using hi⟩ =
      (l.map f).get ⟨k, by simpa using hk⟩ := by
    simp only [List.get_eq_getElem, List.getElem_map]
    simpa using hfw
  have := hinj hgi
  simp only [Fin.mk.injEq] at this
  exact hik this

theorem selectionLoop_nodup {α : Type} [LinearOrderedField α] (randoms : ℕ → α) :
    ∀ (fuel i : ℕ) (available : List (WeightedItem α)),
      (available.map (fun w => w.itemId)).Nodup →
      (selectionLoop randoms false fuel i available).Nodup := by
  intro fuel
  induction fuel with
  | zero =>
    intro i available _
    simp [selectionLoop]
  | succ n ih =>
    intro i available hnd
    by_cases he : available.isEmpty
    · rw [selectionLoop]
      simp [he]
    · have hne : available ≠ [] := by
        simpa [List.isEmpty_iff] using he
      have hlt := selectedIndex_lt (randoms i) available hne
      rw [selectionLoop]
      simp only [he, Bool.false_eq_true, if_false]
      refine List.nodup_cons.mpr ⟨?_, ?_⟩
      · intro hmem
        have hsub := selectionLoop_subset randoms n (i + 1) _ _ hmem
        rw [normalizeWeights_map_itemId] at hsub
        rw [List.getD_eq_getElem _ _ hlt] at hsub
        exact not_mem_map_eraseIdx (fun w => w.itemId) available _ hlt hnd hsub
      · apply ih
        rw [normalizeWeights_map_itemId]
        exact ((List.eraseIdx_sublist available _).map _).nodup hnd

theorem selectionLoop_perm {α : Type} [LinearOrderedField α] (randoms : ℕ → α)
    (fuel i : ℕ) (available : List (WeightedItem α))
    (hnd : (available.map (fun w => w.itemId)).Nodup)
    (hfuel : available.length ≤ fuel) :
    (selectionLoop randoms false fuel i available).Perm
      (available.map (fun w => w.itemId)) := by
  have hsubperm : (selectionLoop randoms false fuel i available).Subperm
      (available.map (fun w => w.itemId)) := by
    rw [List.subperm_ext_iff]
    intro x hx
    have h1 : (selectionLoop randoms false fuel i available).count x = 1 :=
      List.count_eq_one_of_mem (selectionLoop_nodup randoms fuel i available hnd) hx
    have h2 : 0 < (available.map (fun w => w.itemId)).count x :=
      List.count_pos_iff.mpr (selectionLoop_subset randoms fuel i available x hx)
    omega
  apply hsubperm.perm_of_length_le
  rw [List.length_map, selectionLoop_length]
  omega

end WeightedSelection

/-! ## Helper lemmas: the Fisher-Yates shuffle is a permutation -/

namespace WeightedSelection

theorem get_cons_set_perm {α : Type} :
    ∀ (l : List α) (k : ℕ) (hk : k < l.length) (a : α),
      (l.get ⟨k, hk⟩ :: l.set k a).Perm (a :: l) := by
  intro l
  induction l with
  | nil =>
    intro k hk
    simp at hk
  | cons b t ih =>
    intro k hk a
    cases k with
    | zero =>
      simpa using List.Perm.swap a b t
    | succ m =>
      have hm : m < t.length := by simpa using hk
      have step1 : (t.get ⟨m, hm⟩ :: b :: t.set m a).Perm
          (b :: t.get ⟨m, hm⟩ :: t.set m a) := List.Perm.swap b _ _
      have step2 : (b :: t.get ⟨m, hm⟩ :: t.set m a).Perm (b :: a :: t) :=
        (ih m hm a).cons b
      have step3 : (b :: a :: t).Perm (a :: b :: t) := List.Perm.swap a b t
      simpa using step1.trans (step2.trans step3)

theorem set_swap_perm {α : Type} :
    ∀ (l : List α) (i j : ℕ) (hi : i < l.length) (hj : j < l.length),
      ((l.set i (l.get ⟨j, hj⟩)).set j (l.get ⟨i, hi⟩)).Perm l := by
  intro l
  induction l with
  | nil =>
    intro i j hi
    simp at hi
  | cons b t ih =>
    intro i j hi hj
    cases i with
    | zero =>
      cases j with
      | zero => simp
      | succ m =>
        have hm : m < t.length := by simpa using hj
        simpa using get_cons_set_perm t m hm b
    | succ k =>
      have hk : k < t.length := by simpa using hi
      cases j with
      | zero =>
        simpa using get_cons_set_perm t k hk b
      | succ m =>
        have hm : m < t.length := by simpa using hj
        simpa using (ih k m hk hm).cons b

theorem listSwap_perm {α : Type} (l : List α) (i j : ℕ) :
    (listSwap l i j).Perm l := by
  unfold listSwap
  cases hi : l.get? i with
  | none => exact List.Perm.refl l
  | some x =>
    cases hj : l.get? j with
    | none => exact List.Perm.refl l
    | some y =>
      obtain ⟨hi', rfl⟩ := List.get?_eq_some.mp hi
      obtain ⟨hj', rfl⟩ := List.get?_eq_some.mp hj
      exact set_swap_perm l i j hi' hj'

theorem fisherYatesGo_perm {α : Type} (rand : ℕ → ℚ) :
    ∀ (n : ℕ) (l : List α), (fisherYatesGo rand n l).Perm l := by
  intro n
  induction n with
  | zero =>
    intro l
    exact List.Perm.refl l
  | succ i ih =>
    intro l
    exact (ih _).trans (listSwap_perm l (i + 1) _)

theorem shuffleArray_perm {α : Type} (rand : ℕ → ℚ) (l : List α) :
    (shuffleArray rand l).Perm l :=
  fisherYatesGo_perm rand _ l

end WeightedSelection

/-! ## Helper lemmas: the bootstrap round -/

namespace LetterMatchUtils

theorem firstRoundGo_length (caseRand : ℕ → ℚ) (letterCase : CaseType) :
    ∀ (chars : List Char) (i : ℕ),
      (firstRoundGo caseRand letterCase i chars).length = chars.length := by
  intro chars
  induction chars with
  | nil =>
    intro i
    rfl
  | cons c rest ih =>
    intro i
    simp [firstRoundGo, ih]

theorem firstRoundGo_map_toUpper (caseRand : ℕ → ℚ) :
    ∀ (chars : List Char) (i : ℕ),
      (∀ c ∈ chars, c.toUpper = c ∧ c.toLower.toUpper = c) →
      (firstRoundGo caseRand .both i chars).map (fun l => l.character.toUpper) =
        chars := by
  intro chars
  induction chars with
  | nil =>
    intro i _
    rfl
  | cons c rest ih =>
    intro i h
    have hc := h c (List.mem_cons_self c rest)
    have hrest : ∀ x ∈ rest, x.toUpper = x ∧ x.toLower.toUpper = x :=
      fun x hx => h x (List.mem_cons_of_mem c hx)
    simp only [firstRoundGo, List.map_cons, ih (i + 1) hrest, if_true]
    by_cases hr : (1 : ℚ) / 2 < caseRand i
    · rw [if_pos hr, if_pos rfl, hc.1]
    · rw [if_neg hr, if_neg (by decide), hc.2]

theorem alphabet_chars_upper :
    ∀ c ∈ ALPHABET, c.toUpper = c ∧ c.toLower.toUpper = c := by
  decide

theorem alphabet_nodup : ALPHABET.Nodup := by
  decide

theorem firstRoundLetters_map_toUpper (caseRand : ℕ → ℚ) :
    (firstRoundLetters caseRand .both).map (fun l => l.character.toUpper) =
      ALPHABET :=
  firstRoundGo_map_toUpper caseRand ALPHABET 0 alphabet_chars_upper

theorem generateFirstRound_perm (caseRand shuffleRand : ℕ → ℚ)
    (config : LetterMatchConfig) (hcase : config.letterCase = .both) :
    ((generateFirstRound caseRand shuffleRand config).map
        (fun l => l.character.toUpper)).Perm ALPHABET := by
  unfold generateFirstRound
  rw [hcase]
  have hperm := WeightedSelection.shuffleArray_perm shuffleRand
    (firstRoundLetters caseRand .both)
  have := hperm.map (fun l => l.character.toUpper)
  rwa [firstRoundLetters_map_toUpper] at this

end LetterMatchUtils

/-! ## Helper lemmas: statistics invariant -/

namespace LetterMatchUtils

theorem bumpStat_inv (s : LetterMatchStatistics) (correct : Bool) (now : ℚ)
    (h : s.correctCount + s.incorrectCount = s.totalAttempts) :
    StatInv (bumpStat s correct now) := by
  constructor
  · cases correct <;> simp [bumpStat] <;> omega
  · cases correct <;> simp [bumpStat]

theorem freshStat_counts (profileId : ℕ) (letter : Letter) (now : ℚ) :
    (freshStat profileId letter now).correctCount +
        (freshStat profileId letter now).incorrectCount =
      (freshStat profileId letter now).totalAttempts := rfl

theorem recordAnswerRead_mem_or_fresh (database : List LetterMatchStatistics)
    (letter : Letter) (profileId : ℕ) (now : ℚ) :
    recordAnswerRead database letter profileId now ∈ database ∨
      recordAnswerRead database letter profileId now =
        freshStat profileId letter now := by
  unfold recordAnswerRead
  cases hf : findStat database profileId letter.character.toUpper letter.caseType with
  | none => right; rfl
  | some s =>
    left
    unfold findStat at hf
    simpa using List.mem_of_find?_eq_some hf

theorem mem_dbPut (database : List LetterMatchStatistics)
    (stat s : LetterMatchStatistics) (hs : s ∈ dbPut database stat) :
    s ∈ database ∨ s = stat ∨
      s = { stat with id := some (freshId database) } := by
  unfold dbPut at hs
  split at hs
  next i hsome =>
    split at hs
    next hany =>
      obtain ⟨t, ht, heq⟩ := List.mem_map.mp hs
      by_cases hti : t.id == some i
      · rw [if_pos hti] at heq
        exact Or.inr (Or.inl heq.symm)
      · rw [if_neg hti] at heq
        exact Or.inl (heq ▸ ht)
    next hany =>
      rcases List.mem_append.mp hs with hmem | hmem
      · exact Or.inl hmem
      · exact Or.inr (Or.inl (by simpa using hmem))
  next hnone =>
    rcases List.mem_append.mp hs with hmem | hmem
    · exact Or.inl hmem
    · right; right
      simpa using hmem

theorem statInv_set_id (stat : LetterMatchStatistics) (x : Option ℕ) :
    StatInv { stat with id := x } ↔ StatInv stat := Iff.rfl

theorem recordAnswer_inv (database : List LetterMatchStatistics)
    (letter : Letter) (correct : Bool) (profileId : ℕ) (now : ℚ)
    (h : ∀ s ∈ database, StatInv s) :
    ∀ s ∈ recordAnswer database letter correct profileId now, StatInv s := by
  intro s hs
  unfold recordAnswer at hs
  have hbump : StatInv
      (bumpStat (recordAnswerRead database letter profileId now) correct now) := by
    apply bumpStat_inv
    rcases recordAnswerRead_mem_or_fresh database letter profileId now with hm | he
    · exact (h _ hm).1
    · rw [he]
      exact freshStat_counts profileId letter now
  rcases mem_dbPut _ _ _ hs with hm | he | he
  · exact h _ hm
  · rw [he]
    exact hbump
  · rw [he]
    exact (statInv_set_id _ _).mpr hbump

theorem initialLetterStats_zeroed (profileId : ℕ) (now : ℚ) :
    ∀ s ∈ initialLetterStats profileId now,
      s.totalAttempts = 0 ∧ s.correctCount = 0 ∧ s.incorrectCount = 0 ∧
        s.successRate = 0 ∧ StatInv s := by
  intro s hs
  unfold initialLetterStats at hs
  obtain ⟨c, _, hmem⟩ := List.mem_flatMap.mp hs
  obtain ⟨ct, _, heq⟩ := List.mem_map.mp hmem
  subst heq
  exact ⟨rfl, rfl, rfl, rfl, rfl, by rw [if_pos rfl]⟩

end LetterMatchUtils

/-! ## Claim theorems -/

/-- C10: if the store's submit-answer action runs when the round is
already complete (`currentIndex ≥ sessionLetters.length`), it is a no-op:
the statistics table is returned unchanged for every possible persistence
function (so nothing is written) and the entire session state —
`currentIndex`, `currentScore`, `roundComplete`, `sessionLetters` — is
unchanged, with no error surfaced. -/
theorem claim_C10_complete_round_noop
    (persist : List LetterMatchStatistics → Letter → Bool → ℕ →
      Except StorageError (List LetterMatchStatistics))
    (activeProfileId : Option ℕ) (correct : Bool)
    (st : LetterMatchState) (database : List LetterMatchStatistics)
    (h : st.sessionLetters.length ≤ st.currentIndex) :
    LetterMatchStore.recordAnswer persist activeProfileId correct st database =
      (st, database, none) := by
  unfold LetterMatchStore.recordAnswer
  rw [if_pos h]

/-- Witness for C10: a concrete completed round is left untouched. -/
theorem claim_C10_witness :
    doneState.sessionLetters.length ≤ doneState.currentIndex ∧
      LetterMatchStore.recordAnswer failingPersist (some 1) true doneState
          [statA0] = (doneState, [statA0], none) :=
  ⟨by decide,
   claim_C10_complete_round_noop failingPersist (some 1) true doneState
     [statA0] (by decide)⟩

/-- C7: if the storage write performed while recording an answer fails
(the persistence call rejects), the round state does not advance: the
returned session state is exactly the input state (same `currentIndex`,
`currentScore`, `roundComplete`), the table is unchanged, and the error
is surfaced — so the same item remains active and a retry neither skips
an item nor double-records. -/
theorem claim_C7_write_failure_freezes_round
    (persist : List LetterMatchStatistics → Letter → Bool → ℕ →
      Except StorageError (List LetterMatchStatistics))
    (profileId : ℕ) (correct : Bool) (st : LetterMatchState)
    (database : List LetterMatchStatistics) (e : StorageError)
    (hidx : st.currentIndex < st.sessionLetters.length)
    (hfail : persist database
        (st.sessionLetters.getD st.currentIndex ⟨'A', .uppercase⟩)
        correct profileId = .error e) :
    LetterMatchStore.recordAnswer persist (some profileId) correct st
        database = (st, database, some e) := by
  unfold LetterMatchStore.recordAnswer
  rw [if_neg (by omega)]
  simp only [hfail]

/-- Witness for C7: a rejecting persistence layer leaves a concrete
mid-round state exactly where it was. -/
theorem claim_C7_witness :
    midRoundState.currentIndex < midRoundState.sessionLetters.length ∧
      LetterMatchStore.recordAnswer failingPersist (some 1) true
          midRoundState [statA0] =
        (midRoundState, [statA0], some .storageUnavailable) :=
  ⟨by decide,
   claim_C7_write_failure_freezes_round failingPersist 1 true midRoundState
     [statA0] .storageUnavailable (by decide) rfl⟩

/-- C5: statistic creation and update preserve the invariant
`correctCount + incorrectCount = totalAttempts` with `successRate`
derived as `correctCount / totalAttempts` (0 when `totalAttempts = 0`):
the initialization records are zeroed and satisfy it, and `recordAnswer`
(for either correctness value, whether it finds a record or creates one)
maps a table of invariant-satisfying records to a table of
invariant-satisfying records. -/
theorem claim_C5_statistics_invariant (profileId : ℕ) (now : ℚ)
    (database : List LetterMatchStatistics) (letter : Letter)
    (correct : Bool) (h : ∀ s ∈ database, StatInv s) :
    (∀ s ∈ LetterMatchUtils.initialLetterStats profileId now,
        StatInv s ∧ s.totalAttempts = 0 ∧ s.correctCount = 0 ∧
          s.incorrectCount = 0 ∧ s.successRate = 0) ∧
    (∀ s ∈ LetterMatchUtils.recordAnswer database letter correct profileId
        now, StatInv s) := by
  constructor
  · intro s hs
    obtain ⟨h1, h2, h3, h4, h5⟩ :=
      LetterMatchUtils.initialLetterStats_zeroed profileId now s hs
    exact ⟨h5, h1, h2, h3, h4⟩
  · exact LetterMatchUtils.recordAnswer_inv database letter correct profileId
      now h

/-- Witness for C5: recording a correct answer for `a`/lowercase against
a concrete one-record table keeps every stored record invariant. -/
theorem claim_C5_witness :
    (∀ s ∈ ([statA0] : List LetterMatchStatistics), StatInv s) ∧
      (∀ s ∈ LetterMatchUtils.recordAnswer [statA0] letterA true 1 0,
        StatInv s) :=
  ⟨by decide,
   (claim_C5_statistics_invariant 1 0 [statA0] letterA true (by decide)).2⟩

/-- C1: the unprotected read-then-write of the database `recordAnswer`
loses an increment under the event-loop interleaving read₁, read₂,
write₁, write₂: two interleaved calls on a zeroed statistic leave
`totalAttempts = 1`, whereas the same two calls run sequentially leave
`totalAttempts = 2` (the claim demands `totalAttempts = 2` in both
schedules). -/
theorem claim_C1_interleaving_loses_update :
    ((LetterMatchUtils.findStat
        (LetterMatchUtils.recordAnswerInterleaved [statA0] letterA true true
          1 0) 1 'A' .uppercase).map (fun s => s.totalAttempts) = some 1) ∧
    ((LetterMatchUtils.findStat
        (LetterMatchUtils.recordAnswer
          (LetterMatchUtils.recordAnswer [statA0] letterA true 1 0)
          letterA true 1 0) 1 'A' .uppercase).map
        (fun s => s.totalAttempts) = some 2) ∧
    (1 : ℕ) ≠ 2 := by
  refine ⟨by decide, by decide, by decide⟩

/-- C8: a statistic with `totalAttempts = 0` (or a missing record) gets
weight exactly 1.0 regardless of the difficulty setting, in both
weight-computation paths: the selection-library pipeline (including the
difficulty adjustment, of which 1.0 is a fixed point) and the database
utilities' `calculateWeight`. -/
theorem claim_C8_unseen_weight_one (now : ℚ) (d : Difficulty)
    (stats : List GameStatistics) (s : LetterMatchStatistics)
    (hstats : ∀ x ∈ stats, x.totalAttempts = 0)
    (hs : s.totalAttempts = 0) :
    (∀ w ∈ WeightedSelection.generateRoundWeights now stats d,
        w.weight = 1) ∧
    LetterMatchUtils.calculateWeight now d none = 1 ∧
    LetterMatchUtils.calculateWeight now d (some s) = 1 := by
  refine ⟨?_, rfl, ?_⟩
  · intro w hw
    unfold WeightedSelection.generateRoundWeights at hw
    have hbase : ∀ v ∈ stats.map (fun stat =>
        (⟨stat.itemId, ((WeightedSelection.calculateWeight now stat : ℚ) : ℝ)⟩ :
          WeightedItem ℝ)), v.weight = 1 := by
      intro v hv
      obtain ⟨stat, hstat, rfl⟩ := List.mem_map.mp hv
      have hone : WeightedSelection.calculateWeight now stat = 1 := by
        unfold WeightedSelection.calculateWeight
        rw [if_pos (hstats stat hstat)]
      show ((WeightedSelection.calculateWeight now stat : ℚ) : ℝ) = 1
      rw [hone]
      norm_num
    cases d with
    | auto => exact hbase w hw
    | easy =>
      unfold WeightedSelection.adjustWeightsForDifficulty at hw
      obtain ⟨v, hv, rfl⟩ := List.mem_map.mp hw
      have hv1 := hbase v hv
      show 0.3 + v.weight * 0.7 = 1
      rw [hv1]
      norm_num
    | hard =>
      unfold WeightedSelection.adjustWeightsForDifficulty at hw
      obtain ⟨v, hv, rfl⟩ := List.mem_map.mp hw
      have hv1 := hbase v hv
      show v.weight ^ (1.5 : ℝ) = 1
      rw [hv1, Real.one_rpow]
  · simp [LetterMatchUtils.calculateWeight, hs]

/-- Witness for C8: a concrete never-attempted statistic gets weight 1 in
both paths at hard difficulty. -/
theorem claim_C8_witness :
    (∀ x ∈ [statFresh], x.totalAttempts = 0) ∧
    (∀ w ∈ WeightedSelection.generateRoundWeights 0 [statFresh] .hard,
        w.weight = 1) ∧
    LetterMatchUtils.calculateWeight 0 .hard none = 1 ∧
    LetterMatchUtils.calculateWeight 0 .hard (some statA0) = 1 :=
  ⟨by decide,
   claim_C8_unseen_weight_one 0 .hard [statFresh] statA0 (by decide) rfl⟩

/-- C9: for a non-empty candidate list, `normalizeWeights` returns one
entry per candidate with weights summing to exactly 1; when the total
input weight is 0 every candidate receives the uniform weight `1 / n`
(no division by zero, no empty or all-zero output). -/
theorem claim_C9_normalize_distribution {α : Type} [LinearOrderedField α]
    (weights : List (WeightedItem α)) (h : weights ≠ []) :
    ((WeightedSelection.normalizeWeights weights).map
        (fun w => w.weight)).sum = 1 ∧
    (WeightedSelection.normalizeWeights weights).length = weights.length ∧
    ((weights.map (fun w => w.weight)).sum = 0 →
      ∀ w ∈ WeightedSelection.normalizeWeights weights,
        w.weight = 1 / (weights.length : α)) :=
  ⟨WeightedSelection.normalizeWeights_sum weights h,
   WeightedSelection.normalizeWeights_length weights,
   fun htot => WeightedSelection.normalizeWeights_uniform weights htot⟩

/-- Witness for C9: a concrete two-candidate list normalises to a sum of
exactly 1. -/
theorem claim_C9_witness :
    (([⟨"a", (3 : ℚ)⟩, ⟨"b", 1⟩] : List (WeightedItem ℚ)) ≠ []) ∧
    ((WeightedSelection.normalizeWeights
        ([⟨"a", (3 : ℚ)⟩, ⟨"b", 1⟩] : List (WeightedItem ℚ))).map
        (fun w => w.weight)).sum = 1 :=
  ⟨by decide,
   (claim_C9_normalize_distribution [⟨"a", (3 : ℚ)⟩, ⟨"b", 1⟩]
     (by decide)).1⟩

/-- C4 (amended): `weightedRandomSelection(candidates, count,
allowRepeats=false)` always returns exactly `min count |candidates|` ids
and never reuses a candidate entry; when the candidates' item ids are
pairwise distinct the result has no duplicate ids, and when
`count ≥ |candidates|` it is a permutation of all the candidate ids
(every candidate exactly once). -/
theorem claim_C4_selection_no_duplicates {α : Type} [LinearOrderedField α]
    (randoms : ℕ → α) (weights : List (WeightedItem α)) (count : ℕ) :
    (WeightedSelection.weightedRandomSelection randoms weights count
        false).length = min count weights.length ∧
    ((weights.map (fun w => w.itemId)).Nodup →
      (WeightedSelection.weightedRandomSelection randoms weights count
          false).Nodup ∧
      (weights.length ≤ count →
        (WeightedSelection.weightedRandomSelection randoms weights count
            false).Perm (weights.map (fun w => w.itemId)))) := by
  cases weights with
  | nil =>
    simp [WeightedSelection.weightedRandomSelection]
  | cons w ws =>
    simp only [WeightedSelection.weightedRandomSelection,
      List.isEmpty_cons, Bool.false_eq_true, if_false]
    refine ⟨?_, ?_⟩
    · rw [WeightedSelection.selectionLoop_length,
        WeightedSelection.normalizeWeights_length]
    · intro hnd
      have hnd' : ((WeightedSelection.normalizeWeights (w :: ws)).map
          (fun v => v.itemId)).Nodup := by
        rw [WeightedSelection.normalizeWeights_map_itemId]
        exact hnd
      refine ⟨WeightedSelection.selectionLoop_nodup randoms count 0 _ hnd', ?_⟩
      intro hcount
      have hperm := WeightedSelection.selectionLoop_perm randoms count 0
        (WeightedSelection.normalizeWeights (w :: ws)) hnd'
        (by rw [WeightedSelection.normalizeWeights_length]; exact hcount)
      rwa [WeightedSelection.normalizeWeights_map_itemId] at hperm

/-- Witness for C4: selecting 5 from 3 distinct candidates returns each
exactly once. -/
theorem claim_C4_witness :
    (([⟨"a", (2 : ℚ)⟩, ⟨"b", 1⟩, ⟨"c", 1⟩] :
        List (WeightedItem ℚ)).map (fun w => w.itemId)).Nodup ∧
    (WeightedSelection.weightedRandomSelection (fun _ => (0 : ℚ))
        ([⟨"a", (2 : ℚ)⟩, ⟨"b", 1⟩, ⟨"c", 1⟩] : List (WeightedItem ℚ)) 5
        false).Perm
      (([⟨"a", (2 : ℚ)⟩, ⟨"b", 1⟩, ⟨"c", 1⟩] :
        List (WeightedItem ℚ)).map (fun w => w.itemId)) :=
  ⟨by decide,
   ((claim_C4_selection_no_duplicates (fun _ => (0 : ℚ))
       [⟨"a", (2 : ℚ)⟩, ⟨"b", 1⟩, ⟨"c", 1⟩] 5).2 (by decide)).2 (by decide)⟩

/-- Counterexample for C4 as stated: for a candidate list whose entries
share an item id, the selection (with repeats disallowed) still returns
that id twice, so "no duplicate item ids for every candidate list" fails. -/
theorem claim_C4_counterexample :
    WeightedSelection.weightedRandomSelection (fun _ => (0 : ℚ))
        ([⟨"a", 1⟩, ⟨"a", 1⟩] : List (WeightedItem ℚ)) 2 false =
      ["a", "a"] ∧
    ¬ (WeightedSelection.weightedRandomSelection (fun _ => (0 : ℚ))
        ([⟨"a", 1⟩, ⟨"a", 1⟩] : List (WeightedItem ℚ)) 2 false).Nodup := by
  have heval : WeightedSelection.weightedRandomSelection (fun _ => (0 : ℚ))
      ([⟨"a", 1⟩, ⟨"a", 1⟩] : List (WeightedItem ℚ)) 2 false = ["a", "a"] := by
    norm_num [WeightedSelection.weightedRandomSelection,
      WeightedSelection.selectionLoop, WeightedSelection.normalizeWeights,
      WeightedSelection.selectedIndex, WeightedSelection.cumulativeFind,
      List.eraseIdx]
  refine ⟨heval, ?_⟩
  rw [heval]
  decide

/-- C6: for a fresh profile (`currentRound = 0`, so the next round is
round 1) with the 26-letter universe and no case filter (`'both'`),
starting a round produces a bootstrap session of exactly 26 letters, one
per alphabet letter with no letter repeated (the letters, compared
case-insensitively, are a permutation of the alphabet), independent of
the configured `roundSize` (which is universally quantified through
`st.config`). -/
theorem claim_C6_bootstrap_round (adaptive : LetterMatchConfig → List Letter)
    (caseRand shuffleRand : ℕ → ℚ) (profileId : ℕ) (st : LetterMatchState)
    (hround : st.currentRound = 0) (hcase : st.config.letterCase = .both) :
    (LetterMatchStore.startNewRound adaptive caseRand shuffleRand
        (some profileId) st).sessionLetters.length = 26 ∧
    ((LetterMatchStore.startNewRound adaptive caseRand shuffleRand
        (some profileId) st).sessionLetters.map
        (fun l => l.character.toUpper)).Perm LetterMatchUtils.ALPHABET ∧
    ((LetterMatchStore.startNewRound adaptive caseRand shuffleRand
        (some profileId) st).sessionLetters.map
        (fun l => l.character.toUpper)).Nodup := by
  have hsession : (LetterMatchStore.startNewRound adaptive caseRand
      shuffleRand (some profileId) st).sessionLetters =
      LetterMatchUtils.generateFirstRound caseRand shuffleRand st.config := by
    unfold LetterMatchStore.startNewRound
    simp [hround]
  have hperm := LetterMatchUtils.generateFirstRound_perm caseRand shuffleRand
    st.config hcase
  refine ⟨?_, ?_, ?_⟩
  · rw [hsession]
    have hlen := hperm.length_eq
    rw [List.length_map] at hlen
    rw [hlen]
    decide
  · rw [hsession]
    exact hperm
  · rw [hsession]
    exact hperm.nodup_iff.mpr LetterMatchUtils.alphabet_nodup

/-- Witness for C6: starting from a concrete fresh state with the default
configuration and the all-zero random stream. -/
theorem claim_C6_witness :
    freshState.currentRound = 0 ∧ freshState.config.letterCase = .both ∧
    (LetterMatchStore.startNewRound (fun _ => []) zeroRand zeroRand (some 1)
        freshState).sessionLetters.length = 26 ∧
    ((LetterMatchStore.startNewRound (fun _ => []) zeroRand zeroRand (some 1)
        freshState).sessionLetters.map
        (fun l => l.character.toUpper)).Nodup :=
  ⟨rfl, rfl,
   (claim_C6_bootstrap_round (fun _ => []) zeroRand zeroRand 1 freshState
     rfl rfl).1,
   (claim_C6_bootstrap_round (fun _ => []) zeroRand zeroRand 1 freshState
     rfl rfl).2.2⟩

/-- The selection-library `calculateWeight` never returns less than 0.1. -/
theorem calculateWeight_floor (now : ℚ) (s : GameStatistics) :
    (1 / 10 : ℚ) ≤ WeightedSelection.calculateWeight now s := by
  by_cases h0 : s.totalAttempts = 0
  · norm_num [WeightedSelection.calculateWeight, h0]
  · simp only [WeightedSelection.calculateWeight, if_neg h0]
    exact le_max_right _ _

/-- C2 (amended): the difficulty transforms of the two paths differ.  In
the selection library, relaxed maps `w` to `0.3 + 0.7 w`, standard is the
identity, and intensive maps `w` to `w ^ 1.5` (not `w ^ 0.7`); the
`w ^ 1.5` transform is still monotone on nonnegative weights and fixes
the endpoints 0 and 1.  In the database utilities (for a just-attempted,
seen statistic, stated through `calculateWeight` itself), relaxed maps
the error weight `w` to `0.5 + 0.5 w` (not `0.3 + 0.7 w`), intensive maps
it to `w ^ 0.7`, and standard is the identity, each followed by the 0.1
clamp; `w ^ 0.7` is monotone on nonnegative weights and fixes 0 and 1. -/
theorem claim_C2_difficulty_transforms (weights : List (WeightedItem ℝ))
    (v x : ℝ) (hv : 0 ≤ v) (hvx : v ≤ x) (now : ℚ)
    (s : LetterMatchStatistics) (h0 : s.totalAttempts ≠ 0)
    (hla : s.lastAttempt = now) :
    (WeightedSelection.adjustWeightsForDifficulty weights .easy =
        weights.map (fun w => ⟨w.itemId, 0.3 + w.weight * 0.7⟩)) ∧
    (WeightedSelection.adjustWeightsForDifficulty weights .auto = weights) ∧
    (WeightedSelection.adjustWeightsForDifficulty weights .hard =
        weights.map (fun w => ⟨w.itemId, w.weight ^ (1.5 : ℝ)⟩)) ∧
    ((0 : ℝ) ^ (1.5 : ℝ) = 0 ∧ (1 : ℝ) ^ (1.5 : ℝ) = 1 ∧
      v ^ (1.5 : ℝ) ≤ x ^ (1.5 : ℝ)) ∧
    (LetterMatchUtils.calculateWeight now .easy (some s) =
        max 0.1 (0.5 + ((1 - s.successRate : ℚ) : ℝ) * 0.5) ∧
      LetterMatchUtils.calculateWeight now .hard (some s) =
        max 0.1 (((1 - s.successRate : ℚ) : ℝ) ^ (0.7 : ℝ)) ∧
      LetterMatchUtils.calculateWeight now .auto (some s) =
        max 0.1 ((1 - s.successRate : ℚ) : ℝ)) ∧
    ((0 : ℝ) ^ (0.7 : ℝ) = 0 ∧ (1 : ℝ) ^ (0.7 : ℝ) = 1 ∧
      v ^ (0.7 : ℝ) ≤ x ^ (0.7 : ℝ)) := by
  subst hla
  refine ⟨rfl, rfl, rfl,
    ⟨Real.zero_rpow (by norm_num), Real.one_rpow _,
      Real.rpow_le_rpow hv hvx (by norm_num)⟩,
    ⟨?_, ?_, ?_⟩,
    ⟨Real.zero_rpow (by norm_num), Real.one_rpow _,
      Real.rpow_le_rpow hv hvx (by norm_num)⟩⟩
  all_goals
    simp only [LetterMatchUtils.calculateWeight, if_neg h0, if_true,
      sub_self, zero_div,
      if_neg (by decide : ¬(Difficulty.hard = Difficulty.easy)),
      if_neg (by decide : ¬(Difficulty.auto = Difficulty.easy)),
      if_neg (by decide : ¬(Difficulty.auto = Difficulty.hard))]
    norm_num

/-- Witness for C2: the amended formulas at a concrete half-success
statistic and weights 1/4 ≤ 1/2. -/
theorem claim_C2_witness :
    statHalf.totalAttempts ≠ 0 ∧
    WeightedSelection.adjustWeightsForDifficulty [⟨"a", 2⟩] .auto =
      [⟨"a", 2⟩] ∧
    LetterMatchUtils.calculateWeight 0 .auto (some statHalf) =
      max 0.1 ((1 - statHalf.successRate : ℚ) : ℝ) :=
  ⟨by decide,
   (claim_C2_difficulty_transforms [⟨"a", 2⟩] (1 / 4) (1 / 2) (by norm_num)
     (by norm_num) 0 statHalf (by decide) rfl).2.1,
   (claim_C2_difficulty_transforms [⟨"a", 2⟩] (1 / 4) (1 / 2) (by norm_num)
     (by norm_num) 0 statHalf (by decide) rfl).2.2.2.2.1.2.2⟩

/-- Counterexample for C2 as stated: the database path's relaxed
transform gives `0.75` on a half-success statistic where the claimed
`0.3 + 0.7 w` formula gives `0.65`, and the selection-library intensive
transform applies exponent 1.5, which differs from the claimed
exponent 0.7 at weight 1/4. -/
theorem claim_C2_counterexample :
    (LetterMatchUtils.calculateWeight 0 .easy (some statHalf) = 3 / 4 ∧
      (3 / 4 : ℝ) ≠ 0.3 + 0.7 * (1 / 2)) ∧
    (WeightedSelection.adjustWeightsForDifficulty
        [⟨"a", 1 / 4⟩] .hard = [⟨"a", (1 / 4 : ℝ) ^ (1.5 : ℝ)⟩] ∧
      (1 / 4 : ℝ) ^ (1.5 : ℝ) ≠ (1 / 4 : ℝ) ^ (0.7 : ℝ)) := by
  refine ⟨⟨?_, by norm_num⟩, rfl, ?_⟩
  · have h0 : statHalf.totalAttempts ≠ 0 := by decide
    simp only [LetterMatchUtils.calculateWeight, if_neg h0]
    norm_num [statHalf, statA0]
  · have hlt := Real.rpow_lt_rpow_of_exponent_gt
      (x := (1 / 4 : ℝ)) (by norm_num) (by norm_num)
      (by norm_num : (0.7 : ℝ) < 1.5)
    exact ne_of_lt hlt

/-- C3 (amended): the database path's final weight is always at least
0.1, the selection-library base weights are at least 0.1, and the
relaxed/standard difficulty adjustments keep the sampling weights at or
above 0.1 — but (see the counterexample) the intensive transform can push
them below 0.1.  In every path and at every difficulty the weight stays
strictly positive, so each item keeps a non-zero selection probability. -/
theorem claim_C3_weight_floor (now : ℚ) (d : Difficulty)
    (s : GameStatistics) (stats : List GameStatistics)
    (hd : d ≠ .hard) :
    (∀ (d' : Difficulty) (st' : Option LetterMatchStatistics),
        (0.1 : ℝ) ≤ LetterMatchUtils.calculateWeight now d' st') ∧
    (1 / 10 : ℚ) ≤ WeightedSelection.calculateWeight now s ∧
    (∀ w ∈ WeightedSelection.generateRoundWeights now stats d,
        (0.1 : ℝ) ≤ w.weight) ∧
    (∀ (d' : Difficulty),
        ∀ w ∈ WeightedSelection.generateRoundWeights now stats d',
          0 < w.weight) := by
  have hbase : ∀ v ∈ stats.map (fun stat =>
      (⟨stat.itemId, ((WeightedSelection.calculateWeight now stat : ℚ) : ℝ)⟩ :
        WeightedItem ℝ)), (0.1 : ℝ) ≤ v.weight := by
    intro v hv
    obtain ⟨stat, hstat, rfl⟩ := List.mem_map.mp hv
    show (0.1 : ℝ) ≤ ((WeightedSelection.calculateWeight now stat : ℚ) : ℝ)
    have h := calculateWeight_floor now stat
    have : ((1 / 10 : ℚ) : ℝ) ≤ ((WeightedSelection.calculateWeight now stat : ℚ) : ℝ) := by
      exact_mod_cast h
    linarith [this]
  refine ⟨?_, calculateWeight_floor now s, ?_, ?_⟩
  · intro d' st'
    cases st' with
    | none => norm_num [LetterMatchUtils.calculateWeight]
    | some s' =>
      by_cases h0 : s'.totalAttempts = 0
      · norm_num [LetterMatchUtils.calculateWeight, h0]
      · simp only [LetterMatchUtils.calculateWeight, if_neg h0]
        exact le_max_left _ _
  · intro w hw
    unfold WeightedSelection.generateRoundWeights at hw
    cases d with
    | hard => exact absurd rfl hd
    | auto => exact hbase w hw
    | easy =>
      unfold WeightedSelection.adjustWeightsForDifficulty at hw
      obtain ⟨v, hv, rfl⟩ := List.mem_map.mp hw
      have h1 := hbase v hv
      show (0.1 : ℝ) ≤ 0.3 + v.weight * 0.7
      nlinarith [h1]
  · intro d' w hw
    unfold WeightedSelection.generateRoundWeights at hw
    cases d' with
    | auto =>
      have h1 := hbase w hw
      linarith [h1]
    | easy =>
      unfold WeightedSelection.adjustWeightsForDifficulty at hw
      obtain ⟨v, hv, rfl⟩ := List.mem_map.mp hw
      have h1 := hbase v hv
      show (0 : ℝ) < 0.3 + v.weight * 0.7
      nlinarith [h1]
    | hard =>
      unfold WeightedSelection.adjustWeightsForDifficulty at hw
      obtain ⟨v, hv, rfl⟩ := List.mem_map.mp hw
      have h1 := hbase v hv
      show (0 : ℝ) < v.weight ^ (1.5 : ℝ)
      exact Real.rpow_pos_of_pos (by linarith [h1]) _

/-- Witness for C3: the floors at a concrete 9-of-10 statistic under
standard difficulty. -/
theorem claim_C3_witness :
    Difficulty.auto ≠ Difficulty.hard ∧
    (1 / 10 : ℚ) ≤ WeightedSelection.calculateWeight 0 statNine ∧
    (∀ w ∈ WeightedSelection.generateRoundWeights 0 [statNine] .auto,
        (0.1 : ℝ) ≤ w.weight) :=
  ⟨by decide,
   (claim_C3_weight_floor 0 .auto statNine [statNine] (by decide)).2.1,
   (claim_C3_weight_floor 0 .auto statNine [statNine] (by decide)).2.2.1⟩

/-- Counterexample for C3 as stated: in the selection-library path at
intensive difficulty, a 9-of-10 recently-practised item enters the round
with final sampling weight `0.1 ^ 1.5 ≈ 0.0316 < 0.1` — the difficulty
transform runs after the 0.1 clamp. -/
theorem claim_C3_counterexample :
    ((WeightedSelection.generateRoundWeights 0 [statNine] .hard).map
        (fun w => w.weight) = [((1 / 10 : ℚ) : ℝ) ^ (1.5 : ℝ)]) ∧
    ((1 / 10 : ℚ) : ℝ) ^ (1.5 : ℝ) < 0.1 := by
  constructor
  · have hcw : WeightedSelection.calculateWeight 0 statNine = 1 / 10 := by
      norm_num [WeightedSelection.calculateWeight, statNine]
    simp [WeightedSelection.generateRoundWeights,
      WeightedSelection.adjustWeightsForDifficulty, hcw]
  · have hcast : ((1 / 10 : ℚ) : ℝ) = 1 / 10 := by norm_num
    rw [hcast]
    have hlt := Real.rpow_lt_rpow_of_exponent_gt
      (x := (1 / 10 : ℝ)) (by norm_num) (by norm_num)
      (by norm_num : (1 : ℝ) < 1.5)
    rw [Real.rpow_one] at hlt
    have h01 : (0.1 : ℝ) = 1 / 10 := by norm_num
    rw [h01]
    exact hlt
